import Mathlib

/-!
Verification of the neuron-toolkit configuration/simulation pipeline.

Shallow embedding of the repository's Python source:
pure functions become Lean functions; dictionaries become association
lists; the external NEURON engine is abstracted as function-valued
parameters; errors raised with interpolated messages become structured
error values carrying exactly the interpolated components; float
parameter values (never arithmetically combined by this code) are
modelled as rationals.
-/

namespace NeuronToolkit

/-! ## String ordering helpers

Python `sorted` over strings compares code points lexicographically;
we implement that comparison over the character list so it evaluates
inside the kernel. -/

def charListLt : List Char → List Char → Bool
  | [], [] => false
  | [], _ :: _ => true
  | _ :: _, [] => false
  | a :: as, b :: bs =>
    if a.toNat < b.toNat then true
    else if b.toNat < a.toNat then false
    else charListLt as bs

def strLt (a b : String) : Bool := charListLt a.toList b.toList

def insertStr (x : String) : List String → List String
  | [] => [x]
  | y :: ys => if strLt x y then x :: y :: ys else y :: insertStr x ys

def sortStrings : List String → List String :=
  List.foldr insertStr []

/-- Python `sorted(set(xs))`: duplicates removed, then sorted ascending. -/
def sorted_available (avail : List String) : List String :=
  sortStrings avail.dedup

/-! ## Configuration data model (`config/models.py`) -/

/-- `SectionConfig` from `config/models.py`: length, diameter, segment count. -/
structure SectionConfig where
  L : Rat
  diam : Rat
  nseg : Int
deriving DecidableEq, Repr

/-- `Connection` from `config/models.py`. -/
structure Connection where
  parent : String
  child : String
  parent_loc : Rat
  child_loc : Rat
deriving DecidableEq, Repr

/-- The `type` literal of `Morphology` (`single_compartment` or `multi_section`). -/
inductive MorphologyType where
  | single_compartment
  | multi_section
deriving DecidableEq, Repr

/-- `Morphology` from `config/models.py`; the `sections` dict becomes an
association list whose keys are the unique compartment names. -/
structure Morphology where
  type : MorphologyType
  sections : List (String × SectionConfig)
  connections : List Connection
deriving DecidableEq, Repr

/-- `BiophysicsConfig` from `config/models.py`. -/
structure BiophysicsConfig where
  Ra : Rat
  cm : Rat
  mechanisms : List (String × List (String × Rat))
deriving DecidableEq, Repr

/-- The `type` literal of `Stimulus` (only `IClamp`). -/
inductive StimulusType where
  | IClamp
deriving DecidableEq, Repr

/-- `Stimulus` from `config/models.py`. -/
structure Stimulus where
  name : String
  type : StimulusType
  «section» : String
  loc : Rat
  delay_ms : Rat
  duration_ms : Rat
  amplitude_nA : Rat
deriving DecidableEq, Repr

/-- `Recording` from `config/models.py`. -/
structure Recording where
  name : String
  «variable» : String
  «section» : String
  loc : Rat
deriving DecidableEq, Repr

/-- `SimulationConfig` from `config/models.py`. -/
structure SimulationConfig where
  tstop_ms : Rat
  dt_ms : Rat
deriving DecidableEq, Repr

/-- `PlotConfig` from `config/models.py`. -/
structure PlotConfig where
  enabled : Bool
  «variables» : List String
  save_as : String
deriving DecidableEq, Repr

/-- `OutputConfig` from `config/models.py`; the `save_traces` dict becomes
an association list. -/
structure OutputConfig where
  directory : String
  save_traces : List (String × String)
  plot : Option PlotConfig
deriving DecidableEq, Repr

/-- `Environment` from `config/models.py`. -/
structure Environment where
  temperature_celsius : Rat
  random_seed : Option Int
  mechanisms : List String
deriving DecidableEq, Repr

/-- `Metadata` from `config/models.py`. -/
structure Metadata where
  name : String
  description : String
  version : String
deriving DecidableEq, Repr

/-- The `model` field of `ExperimentConfig`: in the source it is a raw
`Dict[str, Any]` holding `morphology` and optionally `biophysics`
(absent modelled as the empty list), accessed through `get_morphology`
and `get_biophysics`. -/
structure ModelField where
  morphology : Morphology
  biophysics : List (String × BiophysicsConfig)
deriving DecidableEq, Repr

/-- `ExperimentConfig` from `config/models.py` (fields as constructed,
before the `validate_section_references` model validator runs). -/
structure ExperimentConfig where
  metadata : Metadata
  environment : Environment
  model : ModelField
  stimuli : List Stimulus
  recordings : List Recording
  simulation : SimulationConfig
  outputs : OutputConfig
deriving DecidableEq, Repr

/-- Structured form of the `ValueError` messages raised by
`ExperimentConfig.validate_section_references`; each constructor carries
exactly the values interpolated into the corresponding f-string
(referencing entity name, missing section, `sorted(available_sections)`). -/
inductive ConfigError where
  | stimulusRef (stimName sectionName : String) (available : List String)
  | recordingRef (recName sectionName : String) (available : List String)
  | biophysicsRef (sectionName : String) (available : List String)
  | connectionParentRef (parentName : String) (available : List String)
  | connectionChildRef (childName : String) (available : List String)
deriving DecidableEq, Repr

/-- Keys of `model.morphology.sections` (Python `available_sections`
is the set of these keys; membership below is membership in this list). -/
def availableSections (cfg : ExperimentConfig) : List String :=
  cfg.model.morphology.sections.map Prod.fst

/-- First loop of `validate_section_references`: check each stimulus
section reference in order, raising on the first violation. -/
def checkStimuli (avail sa : List String) : List Stimulus → Except ConfigError Unit
  | [] => .ok ()
  | s :: rest =>
    if s.«section» ∈ avail then checkStimuli avail sa rest
    else .error (.stimulusRef s.name s.«section» sa)

/-- Second loop of `validate_section_references`: recordings. -/
def checkRecordings (avail sa : List String) : List Recording → Except ConfigError Unit
  | [] => .ok ()
  | r :: rest =>
    if r.«section» ∈ avail then checkRecordings avail sa rest
    else .error (.recordingRef r.name r.«section» sa)

/-- Third loop of `validate_section_references`: biophysics section keys. -/
def checkBiophysics (avail sa : List String) : List String → Except ConfigError Unit
  | [] => .ok ()
  | n :: rest =>
    if n ∈ avail then checkBiophysics avail sa rest
    else .error (.biophysicsRef n sa)

/-- Fourth loop of `validate_section_references`: each connection's
parent is checked before its child. -/
def checkConnections (avail sa : List String) : List Connection → Except ConfigError Unit
  | [] => .ok ()
  | c :: rest =>
    if c.parent ∈ avail then
      if c.child ∈ avail then checkConnections avail sa rest
      else .error (.connectionChildRef c.child sa)
    else .error (.connectionParentRef c.parent sa)

/-- `ExperimentConfig.validate_section_references` from
`config/models.py`: the pydantic `mode='after'` model validator run at
construction; returns the config itself on success, the first
violation's error otherwise.  Constructing an `ExperimentConfig` from a
raw mapping succeeds only if this returns `.ok`. -/
def validate_section_references (cfg : ExperimentConfig) : Except ConfigError ExperimentConfig :=
  match checkStimuli (availableSections cfg)
      (sorted_available (availableSections cfg)) cfg.stimuli with
  | .error e => .error e
  | .ok _ =>
    match checkRecordings (availableSections cfg)
        (sorted_available (availableSections cfg)) cfg.recordings with
    | .error e => .error e
    | .ok _ =>
      match checkBiophysics (availableSections cfg)
          (sorted_available (availableSections cfg))
          (cfg.model.biophysics.map Prod.fst) with
      | .error e => .error e
      | .ok _ =>
        match checkConnections (availableSections cfg)
            (sorted_available (availableSections cfg))
            cfg.model.morphology.connections with
        | .error e => .error e
        | .ok _ => .ok cfg

/-- A concrete raw configuration whose single stimulus targets section
`axon` while the morphology defines only `soma` (the spec's structural
invariant example). -/
def exampleBadConfig : ExperimentConfig :=
  ⟨⟨"t", "", "1.0.0"⟩,
   ⟨36, none, []⟩,
   ⟨⟨.single_compartment, [("soma", ⟨20, 20, 1⟩)], []⟩, []⟩,
   [⟨"stim1", .IClamp, "axon", 0.5, 1, 2, 0.1⟩],
   [⟨"rec1", "v", "soma", 0.5⟩],
   ⟨5, 0.025⟩,
   ⟨"results", [("format", "csv")], none⟩⟩

/-! ## Model builder mechanism parameters (`core/builder.py`) -/

/-- The named numeric attributes of an engine section, as read and
written by Python `setattr`/`hasattr` on the NEURON section object. -/
def AttrMap := String → Option Rat

/-- Python `setattr(section, name, value)`. -/
def setattrSec (sec : AttrMap) (name : String) (value : Rat) : AttrMap :=
  fun n => if n = name then some value else sec n

/-- An engine section with no named parameters set. -/
def emptyAttrMap : AttrMap := fun _ => none

/-- `hh_defaults` from `NeuronModelBuilder.apply_hh_parameters`. -/
def hh_defaults : List (String × Rat) :=
  [("gnabar_hh", 0.12), ("gkbar_hh", 0.036), ("gl_hh", 0.0003), ("el_hh", -54.3)]

/-- `pas_defaults` from `NeuronModelBuilder.apply_passive_parameters`. -/
def pas_defaults : List (String × Rat) :=
  [("g_pas", 0.001), ("e_pas", -65.0)]

/-- `NeuronModelBuilder.apply_hh_parameters`: for every default entry,
set the attribute to the configured value if present, else the default.
Configured keys outside `hh_defaults` are never touched. -/
def apply_hh_parameters (sec : AttrMap) (params : List (String × Rat)) : AttrMap :=
  hh_defaults.foldl
    (fun s kv => setattrSec s kv.1 ((List.lookup kv.1 params).getD kv.2)) sec

/-- `NeuronModelBuilder.apply_passive_parameters`: same rule over
`pas_defaults`. -/
def apply_passive_parameters (sec : AttrMap) (params : List (String × Rat)) : AttrMap :=
  pas_defaults.foldl
    (fun s kv => setattrSec s kv.1 ((List.lookup kv.1 params).getD kv.2)) sec

/-! ## Configuration validator (`config/validator.py`) -/

/-- `validate_experiment_config` from `config/validator.py`.  The raw
document type, the packaged-JSON-schema pass and the pydantic
construction pass are external inputs here: `loadResult` is the outcome
of `load_yaml_config` (any raised error caught as its rendered
message), `schemaVal` is `validate_with_json_schema` and `pydVal` is
`validate_with_pydantic`, both total functions returning error lists.
The result is the Python dict, keys in insertion order. -/
def validate_experiment_config {Doc : Type} (loadResult : Except String Doc)
    (schemaVal pydVal : Doc → List String) : List (String × List String) :=
  match loadResult with
  | .error e => [("file_errors", [String.append "Failed to load YAML: " e])]
  | .ok d => [("schema_errors", schemaVal d), ("pydantic_errors", pydVal d)]

/-- `is_valid_config` from `config/validator.py`: all value lists of the
validation result are empty. -/
def is_valid_config {Doc : Type} (loadResult : Except String Doc)
    (schemaVal pydVal : Doc → List String) : Bool :=
  (validate_experiment_config loadResult schemaVal pydVal).all fun kv => kv.2.isEmpty

/-! ## Experiment orchestration (`main.py`) -/

/-- Observable outcome of `validate_experiment` from `main.py`:
the returned boolean, whether the post-validation summary load was
attempted, and whether its failure was logged as a warning. -/
structure ValidateOutcome where
  success : Bool
  summary_attempted : Bool
  summary_warned : Bool
deriving DecidableEq, Repr

/-- `validate_experiment` from `main.py`: computes `all_valid` over the
validation result's value lists; only when all are empty does it
attempt `load_experiment_config` for the summary, a failure there being
logged as a warning and returning `False`; otherwise it returns
`all_valid`.  `loadConfig` is the outcome of the summary load step. -/
def validate_experiment {Cfg : Type} (validation_results : List (String × List String))
    (loadConfig : Except String Cfg) : ValidateOutcome :=
  if validation_results.all (fun kv => kv.2.isEmpty) then
    match loadConfig with
    | .ok _ => ⟨true, true, false⟩
    | .error _ => ⟨false, true, true⟩
  else ⟨false, false, false⟩

/-! ## Recording manager (`core/recordings.py`) -/

/-- A point `section(loc)` on an engine section: which state references
(`_ref_*` attributes) it exposes, and the outcome of binding a probe to
one (`Vector.record`); an engine failure is its rendered message. -/
structure EnginePoint where
  hasRef : String → Bool
  bindRef : String → Except String Unit

/-- An engine section: a point for each location. -/
def EngineSection := Rat → EnginePoint

/-- Inner failure wrapped by `create_recording`: either the explicit
variable-not-found `ValueError` (naming variable and section) or a
lower-level engine error raised during the dynamic bind. -/
inductive RecInner where
  | varNotFound (variableName sectionName : String)
  | engineErr (msg : String)
deriving DecidableEq, Repr

/-- Structured form of the errors raised by
`RecordingManager.create_recording`, each constructor carrying the
values interpolated into the corresponding message. -/
inductive RecError where
  | sectionNotFound (sectionName recName : String)
  | engine (msg : String)
  | failedRecord (variableName : String) (inner : RecInner)
deriving DecidableEq, Repr

/-- `RecordingManager.create_recording` from `core/recordings.py`:
resolve the target section, bind `v`/`i` to the fixed membrane
references, and look any other variable up dynamically as
`_ref_<variable>`; the whole dynamic branch runs inside
`try/except`, so both the explicit not-found `ValueError` and any
engine error are re-raised wrapped with the variable name.  On success
the probe is stored under the recording's name, returned here. -/
def create_recording (sections : List (String × EngineSection))
    (config : Recording) : Except RecError String :=
  match List.lookup config.«section» sections with
  | none => .error (.sectionNotFound config.«section» config.name)
  | some sec =>
    if config.«variable» = "v" then
      match (sec config.loc).bindRef "_ref_v" with
      | .ok _ => .ok config.name
      | .error e => .error (.engine e)
    else if config.«variable» = "i" then
      match (sec config.loc).bindRef "_ref_i_membrane" with
      | .ok _ => .ok config.name
      | .error e => .error (.engine e)
    else
      if (sec config.loc).hasRef (String.append "_ref_" config.«variable») then
        match (sec config.loc).bindRef (String.append "_ref_" config.«variable») with
        | .ok _ => .ok config.name
        | .error e => .error (.failedRecord config.«variable» (.engineErr e))
      else
        .error (.failedRecord config.«variable»
          (.varNotFound config.«variable» config.«section»))

/-! ## Simulation runner (`core/runner.py`)

The five pipeline stages and the result extraction interact with the
external engine, so they are parameters; engine object handles are
opaque naturals.  `run_simulation` is the `try/finally` of the source;
`pipeline` below is the same stage sequence without the `finally`
clause, used to express that cleanup changes neither the outcome nor
the propagated error. -/

/-- `StimulusManager` session state: the held `IClamp` references. -/
structure StimulusManagerState where
  stimuli : List Nat
deriving DecidableEq, Repr

/-- `RecordingManager` session state: probes by recording name, the
time probe, and the stored configuration list. -/
structure RecordingManagerState where
  recording_vectors : List (String × Nat)
  time_vector : Nat
  recording_configs : List Recording
deriving DecidableEq, Repr

/-- A freshly constructed empty `h.Vector()`. -/
def freshVector : Nat := 0

/-- `SimulationRunner` mutable fields: the section mapping and the two
managers (absent until their setup stage runs). -/
structure RunnerState where
  sections : List (String × Nat)
  stimulus_manager : Option StimulusManagerState
  recording_manager : Option RecordingManagerState
deriving DecidableEq, Repr

/-- `StimulusManager.cleanup`: drop all held stimulus references. -/
def stimulus_manager_cleanup (_ : StimulusManagerState) : StimulusManagerState :=
  ⟨[]⟩

/-- `RecordingManager.cleanup`: discard all probes and configs, replace
the time probe with a fresh one. -/
def recording_manager_cleanup (_ : RecordingManagerState) : RecordingManagerState :=
  ⟨[], freshVector, []⟩

/-- `SimulationRunner.cleanup`: clean each manager when present, clear
the section mapping. -/
def runner_cleanup (r : RunnerState) : RunnerState :=
  ⟨[], r.stimulus_manager.map stimulus_manager_cleanup,
    r.recording_manager.map recording_manager_cleanup⟩

/-- The six pipeline steps of `run_simulation` without the `finally`
clause: the outcome plus the state reached when the pipeline stopped. -/
def pipeline {E R : Type}
    (setup_model setup_stimuli setup_recordings
      configure_simulation run_neuron_simulation : RunnerState → Except E RunnerState)
    (get_results : RunnerState → Except E R)
    (r0 : RunnerState) : Except E R × RunnerState :=
  match setup_model r0 with
  | .error e => (.error e, r0)
  | .ok r1 =>
    match setup_stimuli r1 with
    | .error e => (.error e, r1)
    | .ok r2 =>
      match setup_recordings r2 with
      | .error e => (.error e, r2)
      | .ok r3 =>
        match configure_simulation r3 with
        | .error e => (.error e, r3)
        | .ok r4 =>
          match run_neuron_simulation r4 with
          | .error e => (.error e, r4)
          | .ok r5 =>
            match get_results r5 with
            | .error e => (.error e, r5)
            | .ok res => (.ok res, r5)

/-- `SimulationRunner.run_simulation` from `core/runner.py`: the same
six stages inside `try/finally self.cleanup()` — every exit path, error
or success, runs cleanup on the state reached, and the outcome (value
or error) is returned or re-raised unchanged. -/
def run_simulation {E R : Type}
    (setup_model setup_stimuli setup_recordings
      configure_simulation run_neuron_simulation : RunnerState → Except E RunnerState)
    (get_results : RunnerState → Except E R)
    (r0 : RunnerState) : Except E R × RunnerState :=
  match setup_model r0 with
  | .error e => (.error e, runner_cleanup r0)
  | .ok r1 =>
    match setup_stimuli r1 with
    | .error e => (.error e, runner_cleanup r1)
    | .ok r2 =>
      match setup_recordings r2 with
      | .error e => (.error e, runner_cleanup r2)
      | .ok r3 =>
        match configure_simulation r3 with
        | .error e => (.error e, runner_cleanup r3)
        | .ok r4 =>
          match run_neuron_simulation r4 with
          | .error e => (.error e, runner_cleanup r4)
          | .ok r5 =>
            match get_results r5 with
            | .error e => (.error e, runner_cleanup r5)
            | .ok res => (.ok res, runner_cleanup r5)

/-! ## Output manager (`core/outputs.py`)

Filesystem and plotting effects are modelled as an event trace in
program order. -/

/-- Observable effects of `OutputManager.save_results`. -/
inductive OutEvent where
  | mkdirOutput (dir : String)
  | writeTracesCsv (path : String)
  | warnNoTimeData
  | plotVariable (varName : String)
  | warnVariableMissing (varName : String)
  | savePlotFile (path : String)
deriving DecidableEq, Repr

/-- A results mapping: recording name (or `time`) to numeric array. -/
def TraceData := List (String × List Rat)

/-- `OutputManager.save_traces`: write `traces.csv` only when
`save_traces.format` is `csv`; any other (or missing) format writes
nothing. -/
def save_traces (outputConfig : OutputConfig) (_ : TraceData) : List OutEvent :=
  if List.lookup "format" outputConfig.save_traces = some "csv" then
    [.writeTracesCsv (String.append outputConfig.directory "/traces.csv")]
  else []

/-- `OutputManager.create_plots`: warn and stop without `time` data;
otherwise one subplot per configured variable in order (a missing one
warned and skipped) and one figure saved under the configured name. -/
def create_plots (outputConfig : OutputConfig) (data : TraceData) : List OutEvent :=
  match outputConfig.plot with
  | none => []
  | some pc =>
    if (List.lookup "time" data).isSome then
      (pc.«variables».map fun v =>
        if (List.lookup v data).isSome then OutEvent.plotVariable v
        else OutEvent.warnVariableMissing v) ++
      [.savePlotFile (String.append outputConfig.directory
        (String.append "/" pc.save_as))]
    else [.warnNoTimeData]

/-- `OutputManager.save_results`: create the output directory, write
traces, then plot only when a plot config is present and enabled. -/
def save_results (outputConfig : OutputConfig) (data : TraceData) : List OutEvent :=
  .mkdirOutput outputConfig.directory ::
    (save_traces outputConfig data ++
      (match outputConfig.plot with
       | some pc => if pc.enabled then create_plots outputConfig data else []
       | none => []))

/-! ## Command-line interface (`cli.py`) -/

/-- The two subcommands. -/
inductive CliCommand where
  | run
  | validate
deriving DecidableEq, Repr

/-- Parsed arguments as produced by the argument parser. -/
structure CliArgs where
  command : Option CliCommand
  config_file : String
  output_dir : Option String
  log_level : String
deriving DecidableEq, Repr

/-- Observable effects of the CLI `main`. -/
inductive CliEvent where
  | printedHelp
  | errorFileNotFound (path : String)
  | warnBadExtension (path : String)
  | dispatchedRun (configFile : String) (outputDir : Option String) (logLevel : String)
  | dispatchedValidate (configFile : String) (logLevel : String)
deriving DecidableEq, Repr

/-- The final path component (after the last `/`), as a char list. -/
def pathName (p : String) : List Char :=
  (p.toList.reverse.takeWhile (fun c => c ≠ '/')).reverse

/-- `pathlib.Path(p).suffix`: the final component's extension including
the leading dot; empty when the name has no dot, starts with its only
dot, or ends with the dot. -/
def pathSuffix (p : String) : String :=
  match (pathName p).reverse.dropWhile (fun c => c ≠ '.'),
      (pathName p).reverse.takeWhile (fun c => c ≠ '.') with
  | [], _ => ""
  | _ :: pre, ext =>
    if pre.isEmpty then "" else if ext.isEmpty then ""
    else String.mk ('.' :: ext.reverse)

/-- Python `str.lower()` (character-wise lowering). -/
def lowerString (s : String) : String :=
  String.mk (s.toList.map Char.toLower)

/-- `main` from `cli.py`: no subcommand prints help and exits 1; a
missing config file prints an error and exits 1 without dispatching; an
existing file with a non-`.yaml`/`.yml` extension (case-insensitive)
prints a warning and continues; otherwise the matched orchestration
function is invoked and its boolean result mapped to exit code 0/1.
The orchestration functions are external inputs (per `main.py` they
never raise); the interrupt/unexpected-exception handlers around the
dispatch are therefore not taken in this model. -/
def main (args : CliArgs) (fileExists : String → Bool)
    (run_experiment_fn : String → Option String → String → Bool)
    (validate_experiment_fn : String → String → Bool) : Nat × List CliEvent :=
  match args.command with
  | none => (1, [.printedHelp])
  | some cmd =>
    if fileExists args.config_file then
      match cmd with
      | .run =>
        ((if run_experiment_fn args.config_file args.output_dir args.log_level
            then 0 else 1),
         (if lowerString (pathSuffix args.config_file) ∈ [".yaml", ".yml"] then []
          else [CliEvent.warnBadExtension args.config_file]) ++
           [.dispatchedRun args.config_file args.output_dir args.log_level])
      | .validate =>
        ((if validate_experiment_fn args.config_file args.log_level then 0 else 1),
         (if lowerString (pathSuffix args.config_file) ∈ [".yaml", ".yml"] then []
          else [CliEvent.warnBadExtension args.config_file]) ++
           [.dispatchedValidate args.config_file args.log_level])
    else (1, [.errorFileNotFound args.config_file])

/-! ## Configuration document loader (`config/loader.py`)

`load_yaml_config`/`save_yaml_config` delegate serialization to the
external YAML library (`yaml.safe_load` / `yaml.dump` with block style
and 2-space indentation).  That library is modelled concretely by a
block-style emitter and parser over a document tree of scalars,
mappings and sequences; a document (file content) is its sequence of
lexed lines, each line carrying an indentation depth and either a
`key: [scalar]` mapping entry or a `- [scalar]` sequence item.
Mappings and sequences are emitted non-empty (`wfVal` below), matching
the shape of configuration documents. -/

/-- A YAML scalar as produced by safe loading of configuration values. -/
inductive YScalar where
  | int (n : Int)
  | str (s : String)
  | bool (b : Bool)
deriving DecidableEq, Repr

/-- One lexed line of a block-style YAML document. -/
inductive YTok where
  | entry (indent : Nat) (key : String) (value : Option YScalar)
  | item (indent : Nat) (value : Option YScalar)
deriving DecidableEq, Repr

/-- Indentation depth of a line. -/
def YTok.indent : YTok → Nat
  | .entry i _ _ => i
  | .item i _ => i

mutual
/-- A YAML document tree (mapping / sequence / scalar). -/
inductive YValue where
  | scalar (s : YScalar)
  | map (entries : YEntries)
  | list (items : YItems)
/-- Mapping entries in document order. -/
inductive YEntries where
  | nil
  | cons (key : String) (value : YValue) (rest : YEntries)
/-- Sequence items in document order. -/
inductive YItems where
  | nil
  | cons (value : YValue) (rest : YItems)
end

def YValue.isScalar : YValue → Bool
  | .scalar _ => true
  | _ => false

def YValue.isMap : YValue → Bool
  | .map _ => true
  | _ => false

mutual
/-- Well-formed document values: every mapping and sequence in the tree
is non-empty (empty collections are emitted in flow style by the
external library and are not part of the block-style fragment modelled
here). -/
def wfVal : YValue → Bool
  | .scalar _ => true
  | .map .nil => false
  | .map (.cons _ v rest) => wfVal v && wfEntries rest
  | .list .nil => false
  | .list (.cons v rest) => wfVal v && wfItems rest
def wfEntries : YEntries → Bool
  | .nil => true
  | .cons _ v rest => wfVal v && wfEntries rest
def wfItems : YItems → Bool
  | .nil => true
  | .cons v rest => wfVal v && wfItems rest
end

mutual
/-- Block-style emission at an indentation depth: scalar-valued entries
inline their scalar, composite values open a block one level deeper. -/
def emitBlock (ind : Nat) : YValue → List YTok
  | .scalar _ => []
  | .map es => emitEntries ind es
  | .list xs => emitItems ind xs
def emitEntries (ind : Nat) : YEntries → List YTok
  | .nil => []
  | .cons k v rest =>
    match v with
    | .scalar s => .entry ind k (some s) :: emitEntries ind rest
    | _ => .entry ind k none :: (emitBlock (ind + 1) v ++ emitEntries ind rest)
def emitItems (ind : Nat) : YItems → List YTok
  | .nil => []
  | .cons v rest =>
    match v with
    | .scalar s => .item ind (some s) :: emitItems ind rest
    | _ => .item ind none :: (emitBlock (ind + 1) v ++ emitItems ind rest)
end

/-- Lines strictly deeper than the given indentation (the nested block
of the current entry). -/
def deeper (ind : Nat) : YTok → Bool := fun t => decide (ind < t.indent)

mutual
/-- Block-style parsing with explicit fuel (structural recursion on the
fuel keeps the parser computable in the kernel); at each entry/item the
nested block is the maximal run of strictly deeper lines. -/
def parseBlock : Nat → Nat → List YTok → Option YValue
  | 0, _, _ => none
  | _ + 1, _, [] => none
  | fuel + 1, ind, t :: ts =>
    match t with
    | .entry _ _ _ => (parseEntries fuel ind (t :: ts)).map YValue.map
    | .item _ _ => (parseItems fuel ind (t :: ts)).map YValue.list
def parseEntries : Nat → Nat → List YTok → Option YEntries
  | 0, _, _ => none
  | _ + 1, _, [] => some .nil
  | fuel + 1, ind, .entry i k sv :: rest =>
    if i = ind then
      match sv with
      | some s =>
        if (rest.takeWhile (deeper ind)).isEmpty then
          (parseEntries fuel ind (rest.dropWhile (deeper ind))).map
            (fun es => .cons k (.scalar s) es)
        else none
      | none =>
        match parseBlock fuel (ind + 1) (rest.takeWhile (deeper ind)),
            parseEntries fuel ind (rest.dropWhile (deeper ind)) with
        | some v, some es => some (.cons k v es)
        | _, _ => none
    else none
  | _ + 1, _, .item _ _ :: _ => none
def parseItems : Nat → Nat → List YTok → Option YItems
  | 0, _, _ => none
  | _ + 1, _, [] => some .nil
  | fuel + 1, ind, .item i sv :: rest =>
    if i = ind then
      match sv with
      | some s =>
        if (rest.takeWhile (deeper ind)).isEmpty then
          (parseItems fuel ind (rest.dropWhile (deeper ind))).map
            (fun xs => .cons (.scalar s) xs)
        else none
      | none =>
        match parseBlock fuel (ind + 1) (rest.takeWhile (deeper ind)),
            parseItems fuel ind (rest.dropWhile (deeper ind)) with
        | some v, some xs => some (.cons v xs)
        | _, _ => none
    else none
  | _ + 1, _, .entry _ _ _ :: _ => none
end

mutual
/-- Fuel sufficient to parse an emitted value. -/
def vcost : YValue → Nat
  | .scalar _ => 1
  | .map es => ecost es + 1
  | .list xs => icost xs + 1
def ecost : YEntries → Nat
  | .nil => 1
  | .cons _ v rest => vcost v + ecost rest + 1
def icost : YItems → Nat
  | .nil => 1
  | .cons v rest => vcost v + icost rest + 1
end

/-- Serialize a document tree (`yaml.dump(config, default_flow_style=False,
indent=2)`, one indentation step per nesting level). -/
def dump (v : YValue) : List YTok := emitBlock 0 v

/-- Parse a document (`yaml.safe_load`); the fuel bound is sufficient
for any document of the given length. -/
def parseDoc (toks : List YTok) : Option YValue :=
  parseBlock (3 * toks.length + 2) 0 toks

/-- The file system: path to file content (a file being its sequence of
lexed lines); `none` when the path does not exist. -/
def FileSystem := String → Option (List YTok)

/-- A file system with no files. -/
def emptyFS : FileSystem := fun _ => none

/-- Failures of `load_yaml_config`: missing file (`FileNotFoundError`)
or malformed document (`yaml.YAMLError`). -/
inductive LoadError where
  | fileNotFound (path : String)
  | parseFailed (path : String)
deriving DecidableEq, Repr

/-- `save_yaml_config` from `config/loader.py`: serialize the mapping
and write it to the path (overwriting). -/
def save_yaml_config (fs : FileSystem) (config : YValue) (path : String) : FileSystem :=
  fun p => if p = path then some (dump config) else fs p

/-- `load_yaml_config` from `config/loader.py`: read the file at the
path and safe-parse it. -/
def load_yaml_config (fs : FileSystem) (path : String) : Except LoadError YValue :=
  match fs path with
  | none => .error (.fileNotFound path)
  | some toks =>
    match parseDoc toks with
    | some v => .ok v
    | none => .error (.parseFailed path)

/-! ## Concrete fixtures used by witnesses -/

/-- A point exposing no dynamic state references. -/
def demoPointNoRef : EnginePoint := ⟨fun _ => false, fun _ => .error "engine boom"⟩

/-- A point exposing every reference but failing on bind. -/
def demoPointBadBind : EnginePoint := ⟨fun _ => true, fun _ => .error "engine boom"⟩

def demoSectionsNoRef : List (String × EngineSection) :=
  [("soma", fun _ => demoPointNoRef)]

def demoSectionsBadBind : List (String × EngineSection) :=
  [("soma", fun _ => demoPointBadBind)]

/-- A recording of a non-`v`/`i` engine state variable. -/
def demoRecording : Recording := ⟨"r1", "cai", "soma", 0.5⟩

/-- Pipeline stage fixtures for the runner: build sections, then attach
a stimulus manager, then fail during recording setup. -/
def demoStep1 : RunnerState → Except String RunnerState :=
  fun r => .ok ⟨[("soma", 1)], r.stimulus_manager, r.recording_manager⟩

def demoStep2 : RunnerState → Except String RunnerState :=
  fun r => .ok ⟨r.sections, some ⟨[7]⟩, r.recording_manager⟩

def demoStep3 : RunnerState → Except String RunnerState :=
  fun _ => .error "recording setup failed"

def demoStepOk : RunnerState → Except String RunnerState := fun r => .ok r

def demoResults : RunnerState → Except String Nat := fun _ => .ok 0

def demoR0 : RunnerState := ⟨[], none, none⟩

/-- An output configuration selecting a non-`csv` trace format. -/
def demoOutputConfig : OutputConfig := ⟨"results", [("format", "json")], none⟩

/-- The spec's round-trip example document: `metadata.name = t`, one
section `soma` with `L = 20, diam = 20`, one stimulus, one recording,
`simulation.tstop_ms = 5`. -/
def exSoma : YValue :=
  .map (.cons "L" (.scalar (.int 20)) (.cons "diam" (.scalar (.int 20)) .nil))

def exMorphology : YValue :=
  .map (.cons "type" (.scalar (.str "single_compartment"))
    (.cons "sections" (.map (.cons "soma" exSoma .nil)) .nil))

def exStimulusY : YValue :=
  .map (.cons "name" (.scalar (.str "stim1"))
    (.cons "section" (.scalar (.str "soma"))
      (.cons "delay_ms" (.scalar (.int 1))
        (.cons "duration_ms" (.scalar (.int 2))
          (.cons "amplitude_nA" (.scalar (.int 1)) .nil)))))

def exRecordingY : YValue :=
  .map (.cons "name" (.scalar (.str "rec1"))
    (.cons "variable" (.scalar (.str "v"))
      (.cons "section" (.scalar (.str "soma")) .nil)))

def exampleYamlConfig : YValue :=
  .map (.cons "metadata" (.map (.cons "name" (.scalar (.str "t")) .nil))
    (.cons "model" (.map (.cons "morphology" exMorphology .nil))
      (.cons "stimuli" (.list (.cons exStimulusY .nil))
        (.cons "recordings" (.list (.cons exRecordingY .nil))
          (.cons "simulation" (.map (.cons "tstop_ms" (.scalar (.int 5)) .nil))
            .nil)))))

/-! ## Lemmas about `validate_section_references` -/

theorem checkStimuli_ok_of (avail sa : List String) :
    ∀ l : List Stimulus, (∀ s ∈ l, s.«section» ∈ avail) →
      checkStimuli avail sa l = .ok () := by
  intro l
  induction l with
  | nil => intro _; rfl
  | cons a rest ih =>
    intro h
    have ha : a.«section» ∈ avail := h a (List.mem_cons_self a rest)
    have hrest : ∀ s ∈ rest, s.«section» ∈ avail :=
      fun s hs => h s (List.mem_cons_of_mem a hs)
    simp [checkStimuli, ha, ih hrest]

theorem checkStimuli_err_of (avail sa : List String) :
    ∀ l : List Stimulus, (∃ s ∈ l, s.«section» ∉ avail) →
      ∃ s, s ∈ l ∧ s.«section» ∉ avail ∧
        checkStimuli avail sa l = .error (.stimulusRef s.name s.«section» sa) := by
  intro l
  induction l with
  | nil => rintro ⟨s, hs, _⟩; simp at hs
  | cons a rest ih =>
    rintro ⟨s, hs, hns⟩
    by_cases ha : a.«section» ∈ avail
    · have hex : ∃ s ∈ rest, s.«section» ∉ avail := by
        rcases List.mem_cons.mp hs with h | h
        · exact absurd ha (h ▸ hns)
        · exact ⟨s, h, hns⟩
      rcases ih hex with ⟨t, ht, htn, heq⟩
      exact ⟨t, List.mem_cons_of_mem a ht, htn, by simp [checkStimuli, ha, heq]⟩
    · exact ⟨a, List.mem_cons_self a rest, ha, by simp [checkStimuli, ha]⟩

theorem checkRecordings_ok_of (avail sa : List String) :
    ∀ l : List Recording, (∀ r ∈ l, r.«section» ∈ avail) →
      checkRecordings avail sa l = .ok () := by
  intro l
  induction l with
  | nil => intro _; rfl
  | cons a rest ih =>
    intro h
    have ha : a.«section» ∈ avail := h a (List.mem_cons_self a rest)
    have hrest : ∀ r ∈ rest, r.«section» ∈ avail :=
      fun r hr => h r (List.mem_cons_of_mem a hr)
    simp [checkRecordings, ha, ih hrest]

theorem checkRecordings_err_of (avail sa : List String) :
    ∀ l : List Recording, (∃ r ∈ l, r.«section» ∉ avail) →
      ∃ r, r ∈ l ∧ r.«section» ∉ avail ∧
        checkRecordings avail sa l = .error (.recordingRef r.name r.«section» sa) := by
  intro l
  induction l with
  | nil => rintro ⟨r, hr, _⟩; simp at hr
  | cons a rest ih =>
    rintro ⟨r, hr, hnr⟩
    by_cases ha : a.«section» ∈ avail
    · have hex : ∃ r ∈ rest, r.«section» ∉ avail := by
        rcases List.mem_cons.mp hr with h | h
        · exact absurd ha (h ▸ hnr)
        · exact ⟨r, h, hnr⟩
      rcases ih hex with ⟨t, ht, htn, heq⟩
      exact ⟨t, List.mem_cons_of_mem a ht, htn, by simp [checkRecordings, ha, heq]⟩
    · exact ⟨a, List.mem_cons_self a rest, ha, by simp [checkRecordings, ha]⟩

theorem checkBiophysics_ok_of (avail sa : List String) :
    ∀ l : List String, (∀ n ∈ l, n ∈ avail) →
      checkBiophysics avail sa l = .ok () := by
  intro l
  induction l with
  | nil => intro _; rfl
  | cons a rest ih =>
    intro h
    have ha : a ∈ avail := h a (List.mem_cons_self a rest)
    have hrest : ∀ n ∈ rest, n ∈ avail :=
      fun n hn => h n (List.mem_cons_of_mem a hn)
    simp [checkBiophysics, ha, ih hrest]

theorem checkBiophysics_err_of (avail sa : List String) :
    ∀ l : List String, (∃ n ∈ l, n ∉ avail) →
      ∃ n, n ∈ l ∧ n ∉ avail ∧
        checkBiophysics avail sa l = .error (.biophysicsRef n sa) := by
  intro l
  induction l with
  | nil => rintro ⟨n, hn, _⟩; simp at hn
  | cons a rest ih =>
    rintro ⟨n, hn, hnn⟩
    by_cases ha : a ∈ avail
    · have hex : ∃ n ∈ rest, n ∉ avail := by
        rcases List.mem_cons.mp hn with h | h
        · exact absurd ha (h ▸ hnn)
        · exact ⟨n, h, hnn⟩
      rcases ih hex with ⟨t, ht, htn, heq⟩
      exact ⟨t, List.mem_cons_of_mem a ht, htn, by simp [checkBiophysics, ha, heq]⟩
    · exact ⟨a, List.mem_cons_self a rest, ha, by simp [checkBiophysics, ha]⟩

theorem checkConnections_err_of (avail sa : List String) :
    ∀ l : List Connection, (∃ c ∈ l, c.parent ∉ avail ∨ c.child ∉ avail) →
      ∃ c, c ∈ l ∧
        (checkConnections avail sa l = .error (.connectionParentRef c.parent sa) ∨
         checkConnections avail sa l = .error (.connectionChildRef c.child sa)) := by
  intro l
  induction l with
  | nil => rintro ⟨c, hc, _⟩; simp at hc
  | cons a rest ih =>
    rintro ⟨c, hc, hnc⟩
    by_cases hp : a.parent ∈ avail
    · by_cases hch : a.child ∈ avail
      · have hex : ∃ c ∈ rest, c.parent ∉ avail ∨ c.child ∉ avail := by
          rcases List.mem_cons.mp hc with h | h
          · subst h
            rcases hnc with h1 | h1
            · exact absurd hp h1
            · exact absurd hch h1
          · exact ⟨c, h, hnc⟩
        rcases ih hex with ⟨t, ht, heq⟩
        refine ⟨t, List.mem_cons_of_mem a ht, ?_⟩
        rcases heq with h1 | h1
        · exact Or.inl (by simp [checkConnections, hp, hch, h1])
        · exact Or.inr (by simp [checkConnections, hp, hch, h1])
      · exact ⟨a, List.mem_cons_self a rest,
          Or.inr (by simp [checkConnections, hp, hch])⟩
    · exact ⟨a, List.mem_cons_self a rest,
        Or.inl (by simp [checkConnections, hp])⟩

theorem validate_error_of_stim (cfg : ExperimentConfig) (e : ConfigError)
    (h : checkStimuli (availableSections cfg)
      (sorted_available (availableSections cfg)) cfg.stimuli = .error e) :
    validate_section_references cfg = .error e := by
  unfold validate_section_references
  rw [h]

theorem validate_error_of_rec (cfg : ExperimentConfig) (e : ConfigError)
    (h1 : checkStimuli (availableSections cfg)
      (sorted_available (availableSections cfg)) cfg.stimuli = .ok ())
    (h2 : checkRecordings (availableSections cfg)
      (sorted_available (availableSections cfg)) cfg.recordings = .error e) :
    validate_section_references cfg = .error e := by
  unfold validate_section_references
  rw [h1, h2]

theorem validate_error_of_bio (cfg : ExperimentConfig) (e : ConfigError)
    (h1 : checkStimuli (availableSections cfg)
      (sorted_available (availableSections cfg)) cfg.stimuli = .ok ())
    (h2 : checkRecordings (availableSections cfg)
      (sorted_available (availableSections cfg)) cfg.recordings = .ok ())
    (h3 : checkBiophysics (availableSections cfg)
      (sorted_available (availableSections cfg))
      (cfg.model.biophysics.map Prod.fst) = .error e) :
    validate_section_references cfg = .error e := by
  unfold validate_section_references
  rw [h1, h2, h3]

theorem validate_error_of_conn (cfg : ExperimentConfig) (e : ConfigError)
    (h1 : checkStimuli (availableSections cfg)
      (sorted_available (availableSections cfg)) cfg.stimuli = .ok ())
    (h2 : checkRecordings (availableSections cfg)
      (sorted_available (availableSections cfg)) cfg.recordings = .ok ())
    (h3 : checkBiophysics (availableSections cfg)
      (sorted_available (availableSections cfg))
      (cfg.model.biophysics.map Prod.fst) = .ok ())
    (h4 : checkConnections (availableSections cfg)
      (sorted_available (availableSections cfg))
      cfg.model.morphology.connections = .error e) :
    validate_section_references cfg = .error e := by
  unfold validate_section_references
  rw [h1, h2, h3, h4]

/-- C1: if any Stimulus references a section absent from
`model.morphology.sections`, construction of an `ExperimentConfig`
fails and the error names the referencing stimulus, the missing section
and the sorted list of valid section names; the same holds for a
Recording (when all stimuli are fine), for a biophysics section key
(when stimuli and recordings are fine), and for a Connection's parent
or child (when all earlier categories are fine), reference checks being
applied in that fixed order with the first violation winning. -/
theorem claim_C1 (cfg : ExperimentConfig) :
    ((∃ s ∈ cfg.stimuli, s.«section» ∉ availableSections cfg) →
      ∃ s, s ∈ cfg.stimuli ∧ s.«section» ∉ availableSections cfg ∧
        validate_section_references cfg =
          .error (.stimulusRef s.name s.«section»
            (sorted_available (availableSections cfg)))) ∧
    ((∀ s ∈ cfg.stimuli, s.«section» ∈ availableSections cfg) →
      (∃ r ∈ cfg.recordings, r.«section» ∉ availableSections cfg) →
      ∃ r, r ∈ cfg.recordings ∧ r.«section» ∉ availableSections cfg ∧
        validate_section_references cfg =
          .error (.recordingRef r.name r.«section»
            (sorted_available (availableSections cfg)))) ∧
    ((∀ s ∈ cfg.stimuli, s.«section» ∈ availableSections cfg) →
      (∀ r ∈ cfg.recordings, r.«section» ∈ availableSections cfg) →
      (∃ n ∈ cfg.model.biophysics.map Prod.fst, n ∉ availableSections cfg) →
      ∃ n, n ∈ cfg.model.biophysics.map Prod.fst ∧ n ∉ availableSections cfg ∧
        validate_section_references cfg =
          .error (.biophysicsRef n
            (sorted_available (availableSections cfg)))) ∧
    ((∀ s ∈ cfg.stimuli, s.«section» ∈ availableSections cfg) →
      (∀ r ∈ cfg.recordings, r.«section» ∈ availableSections cfg) →
      (∀ n ∈ cfg.model.biophysics.map Prod.fst, n ∈ availableSections cfg) →
      (∃ c ∈ cfg.model.morphology.connections,
        c.parent ∉ availableSections cfg ∨ c.child ∉ availableSections cfg) →
      ∃ c, c ∈ cfg.model.morphology.connections ∧
        (validate_section_references cfg =
          .error (.connectionParentRef c.parent
            (sorted_available (availableSections cfg))) ∨
         validate_section_references cfg =
          .error (.connectionChildRef c.child
            (sorted_available (availableSections cfg))))) := by
  refine ⟨?_, ?_, ?_, ?_⟩
  · intro hex
    rcases checkStimuli_err_of (availableSections cfg)
      (sorted_available (availableSections cfg)) cfg.stimuli hex with ⟨s, hs, hn, heq⟩
    exact ⟨s, hs, hn, validate_error_of_stim cfg _ heq⟩
  · intro hstim hex
    rcases checkRecordings_err_of (availableSections cfg)
      (sorted_available (availableSections cfg)) cfg.recordings hex with ⟨r, hr, hn, heq⟩
    exact ⟨r, hr, hn, validate_error_of_rec cfg _
      (checkStimuli_ok_of _ _ _ hstim) heq⟩
  · intro hstim hrec hex
    rcases checkBiophysics_err_of (availableSections cfg)
      (sorted_available (availableSections cfg))
      (cfg.model.biophysics.map Prod.fst) hex with ⟨n, hn, hnn, heq⟩
    exact ⟨n, hn, hnn, validate_error_of_bio cfg _
      (checkStimuli_ok_of _ _ _ hstim) (checkRecordings_ok_of _ _ _ hrec) heq⟩
  · intro hstim hrec hbio hex
    rcases checkConnections_err_of (availableSections cfg)
      (sorted_available (availableSections cfg))
      cfg.model.morphology.connections hex with ⟨c, hc, heq⟩
    refine ⟨c, hc, ?_⟩
    rcases heq with h | h
    · exact Or.inl (validate_error_of_conn cfg _
        (checkStimuli_ok_of _ _ _ hstim) (checkRecordings_ok_of _ _ _ hrec)
        (checkBiophysics_ok_of _ _ _ hbio) h)
    · exact Or.inr (validate_error_of_conn cfg _
        (checkStimuli_ok_of _ _ _ hstim) (checkRecordings_ok_of _ _ _ hrec)
        (checkBiophysics_ok_of _ _ _ hbio) h)

/-- C1 witness: on the concrete config whose only stimulus targets
`axon` while morphology defines only `soma`, construction fails naming
`stim1`, `axon` and the sorted available set `[soma]`. -/
theorem claim_C1_witness :
    (∃ s ∈ exampleBadConfig.stimuli,
      s.«section» ∉ availableSections exampleBadConfig) ∧
    validate_section_references exampleBadConfig =
      .error (.stimulusRef "stim1" "axon" ["soma"]) := by
  refine ⟨by decide, ?_⟩
  obtain ⟨s, hs, _, heq⟩ := (claim_C1 exampleBadConfig).1 (by decide)
  have hone : s = ⟨"stim1", .IClamp, "axon", 0.5, 1, 2, 0.1⟩ := by
    simpa [exampleBadConfig] using hs
  rw [heq, hone]
  rfl

/-- C6: applying mechanism `hh` sets `gnabar_hh`, `gkbar_hh`, `gl_hh`,
`el_hh` to the configured value when one is configured and to the
defaults 0.12, 0.036, 0.0003, -54.3 otherwise; in particular,
configuring only `gnabar_hh = 0.2` yields 0.2, 0.036, 0.0003, -54.3. -/
theorem claim_C6 (sec : AttrMap) (params : List (String × Rat)) :
    (apply_hh_parameters sec params "gnabar_hh" =
      some ((List.lookup "gnabar_hh" params).getD 0.12) ∧
     apply_hh_parameters sec params "gkbar_hh" =
      some ((List.lookup "gkbar_hh" params).getD 0.036) ∧
     apply_hh_parameters sec params "gl_hh" =
      some ((List.lookup "gl_hh" params).getD 0.0003) ∧
     apply_hh_parameters sec params "el_hh" =
      some ((List.lookup "el_hh" params).getD (-54.3))) ∧
    (apply_hh_parameters sec [("gnabar_hh", 0.2)] "gnabar_hh" = some 0.2 ∧
     apply_hh_parameters sec [("gnabar_hh", 0.2)] "gkbar_hh" = some 0.036 ∧
     apply_hh_parameters sec [("gnabar_hh", 0.2)] "gl_hh" = some 0.0003 ∧
     apply_hh_parameters sec [("gnabar_hh", 0.2)] "el_hh" = some (-54.3)) := by
  refine ⟨⟨?_, ?_, ?_, ?_⟩, ⟨rfl, rfl, rfl, rfl⟩⟩ <;>
    simp [apply_hh_parameters, hh_defaults, setattrSec]

/-- C9: mechanism `hh` sets exactly the four attributes of
`hh_defaults` and mechanism `pas` exactly the two of `pas_defaults`:
any other key, configured or not, is left untouched (silently, with no
error path), while every key in the fixed set is set. -/
theorem claim_C9 (sec : AttrMap) (params : List (String × Rat)) (k : String) :
    (k ∉ ["gnabar_hh", "gkbar_hh", "gl_hh", "el_hh"] →
      apply_hh_parameters sec params k = sec k) ∧
    (k ∉ ["g_pas", "e_pas"] →
      apply_passive_parameters sec params k = sec k) ∧
    (k ∈ ["gnabar_hh", "gkbar_hh", "gl_hh", "el_hh"] →
      ∃ v, apply_hh_parameters sec params k = some v) ∧
    (k ∈ ["g_pas", "e_pas"] →
      ∃ v, apply_passive_parameters sec params k = some v) := by
  refine ⟨?_, ?_, ?_, ?_⟩
  · intro h
    simp only [List.mem_cons, List.not_mem_nil, or_false, not_or] at h
    obtain ⟨h1, h2, h3, h4⟩ := h
    simp [apply_hh_parameters, hh_defaults, setattrSec, h1, h2, h3, h4]
  · intro h
    simp only [List.mem_cons, List.not_mem_nil, or_false, not_or] at h
    obtain ⟨h1, h2⟩ := h
    simp [apply_passive_parameters, pas_defaults, setattrSec, h1, h2]
  · intro h
    simp only [List.mem_cons, List.not_mem_nil, or_false] at h
    rcases h with rfl | rfl | rfl | rfl
    · exact ⟨(List.lookup "gnabar_hh" params).getD 0.12,
        by simp [apply_hh_parameters, hh_defaults, setattrSec]⟩
    · exact ⟨(List.lookup "gkbar_hh" params).getD 0.036,
        by simp [apply_hh_parameters, hh_defaults, setattrSec]⟩
    · exact ⟨(List.lookup "gl_hh" params).getD 0.0003,
        by simp [apply_hh_parameters, hh_defaults, setattrSec]⟩
    · exact ⟨(List.lookup "el_hh" params).getD (-54.3),
        by simp [apply_hh_parameters, hh_defaults, setattrSec]⟩
  · intro h
    simp only [List.mem_cons, List.not_mem_nil, or_false] at h
    rcases h with rfl | rfl
    · exact ⟨(List.lookup "g_pas" params).getD 0.001,
        by simp [apply_passive_parameters, pas_defaults, setattrSec]⟩
    · exact ⟨(List.lookup "e_pas" params).getD (-65.0),
        by simp [apply_passive_parameters, pas_defaults, setattrSec]⟩

/-- C9 witness: at concrete inputs, a configured key `foo` outside both
fixed sets is ignored by both mechanisms, while `gnabar_hh` and `g_pas`
are always set. -/
theorem claim_C9_witness :
    ("foo" ∉ ["gnabar_hh", "gkbar_hh", "gl_hh", "el_hh"] ∧
      apply_hh_parameters emptyAttrMap [("foo", 1)] "foo" = emptyAttrMap "foo") ∧
    ("foo" ∉ ["g_pas", "e_pas"] ∧
      apply_passive_parameters emptyAttrMap [("foo", 1)] "foo" = emptyAttrMap "foo") ∧
    ("gnabar_hh" ∈ ["gnabar_hh", "gkbar_hh", "gl_hh", "el_hh"] ∧
      ∃ v, apply_hh_parameters emptyAttrMap [] "gnabar_hh" = some v) ∧
    ("g_pas" ∈ ["g_pas", "e_pas"] ∧
      ∃ v, apply_passive_parameters emptyAttrMap [] "g_pas" = some v) :=
  ⟨⟨by decide, (claim_C9 emptyAttrMap [("foo", 1)] "foo").1 (by decide)⟩,
   ⟨by decide, (claim_C9 emptyAttrMap [("foo", 1)] "foo").2.1 (by decide)⟩,
   ⟨by decide, (claim_C9 emptyAttrMap [] "gnabar_hh").2.2.1 (by decide)⟩,
   ⟨by decide, (claim_C9 emptyAttrMap [] "g_pas").2.2.2 (by decide)⟩⟩

/-- C3: `validate_experiment_config` is total (it is a function, never
an exception): a load failure yields a result whose only key is
`file_errors` holding the rendered load failure; a successful load
yields exactly the keys `schema_errors` and `pydantic_errors`; and
`is_valid_config` is true iff every value list of that result is
empty. -/
theorem claim_C3 {Doc : Type} (loadResult : Except String Doc)
    (schemaVal pydVal : Doc → List String) :
    (∀ e, loadResult = .error e →
      validate_experiment_config loadResult schemaVal pydVal =
        [("file_errors", [String.append "Failed to load YAML: " e])]) ∧
    (∀ d, loadResult = .ok d →
      validate_experiment_config loadResult schemaVal pydVal =
        [("schema_errors", schemaVal d), ("pydantic_errors", pydVal d)]) ∧
    (is_valid_config loadResult schemaVal pydVal = true ↔
      ∀ kv ∈ validate_experiment_config loadResult schemaVal pydVal, kv.2 = []) := by
  refine ⟨?_, ?_, ?_⟩
  · rintro e rfl; rfl
  · rintro d rfl; rfl
  · simp [is_valid_config, List.all_eq_true, List.isEmpty_iff]

/-- C3 witness: at a concrete failing load and a concrete successful
load (with empty/nonempty validator outputs), the result shapes and the
`is_valid_config` equivalence hold. -/
theorem claim_C3_witness :
    (validate_experiment_config (Except.error "boom" : Except String Unit)
        (fun _ => []) (fun _ => []) =
      [("file_errors", [String.append "Failed to load YAML: " "boom"])]) ∧
    (validate_experiment_config (Except.ok () : Except String Unit)
        (fun _ => []) (fun _ => ["bad"]) =
      [("schema_errors", []), ("pydantic_errors", ["bad"])]) ∧
    (is_valid_config (Except.ok () : Except String Unit)
        (fun _ => []) (fun _ => ["bad"]) = true ↔
      ∀ kv ∈ validate_experiment_config (Except.ok () : Except String Unit)
        (fun _ => []) (fun _ => ["bad"]), kv.2 = []) :=
  ⟨(claim_C3 (Except.error "boom") (fun _ => []) (fun _ => [])).1 "boom" rfl,
   (claim_C3 (Except.ok ()) (fun _ => []) (fun _ => ["bad"])).2.1 () rfl,
   (claim_C3 (Except.ok ()) (fun _ => []) (fun _ => ["bad"])).2.2⟩

/-- C7: when schema and pydantic validation both produce no errors, the
summary load is attempted; a failing summary load is logged as a
warning and demotes the result to failure even though validation
passed; a successful one returns success; when validation produced any
error, the summary load is never attempted and the result is failure. -/
theorem claim_C7 {Cfg : Type} (validation_results : List (String × List String))
    (loadConfig : Except String Cfg) :
    (validation_results.all (fun kv => kv.2.isEmpty) = true →
      (validate_experiment validation_results loadConfig).summary_attempted = true ∧
      (∀ e, loadConfig = .error e →
        (validate_experiment validation_results loadConfig).success = false ∧
        (validate_experiment validation_results loadConfig).summary_warned = true) ∧
      (∀ c, loadConfig = .ok c →
        (validate_experiment validation_results loadConfig).success = true)) ∧
    (validation_results.all (fun kv => kv.2.isEmpty) = false →
      (validate_experiment validation_results loadConfig).summary_attempted = false ∧
      (validate_experiment validation_results loadConfig).success = false) := by
  constructor
  · intro hall
    refine ⟨?_, ?_, ?_⟩
    · cases loadConfig <;> simp [validate_experiment, hall]
    · rintro e rfl; simp [validate_experiment, hall]
    · rintro c rfl; simp [validate_experiment, hall]
  · intro hall
    simp [validate_experiment, hall]

/-- C7 witness: with clean validation results and a failing summary
load the outcome is attempted-but-failed-with-warning; with a dirty
validation result the summary is never attempted and the outcome is
failure. -/
theorem claim_C7_witness :
    ((validate_experiment [("schema_errors", ([] : List String))]
        (Except.error "broken" : Except String Unit)).summary_attempted = true ∧
     (validate_experiment [("schema_errors", ([] : List String))]
        (Except.error "broken" : Except String Unit)).success = false ∧
     (validate_experiment [("schema_errors", ([] : List String))]
        (Except.error "broken" : Except String Unit)).summary_warned = true) ∧
    ((validate_experiment [("schema_errors", ["bad"])]
        (Except.ok () : Except String Unit)).summary_attempted = false ∧
     (validate_experiment [("schema_errors", ["bad"])]
        (Except.ok () : Except String Unit)).success = false) := by
  have h1 := (claim_C7 [("schema_errors", ([] : List String))]
    (Except.error "broken" : Except String Unit)).1 (by decide)
  have h2 := (claim_C7 [("schema_errors", ["bad"])]
    (Except.ok () : Except String Unit)).2 (by decide)
  exact ⟨⟨h1.1, (h1.2.1 "broken" rfl).1, (h1.2.1 "broken" rfl).2⟩, h2⟩

/-- C2: for any behaviour of the six pipeline steps, `run_simulation`
returns exactly the outcome of the bare pipeline (so an error raised by
any step propagates unsuppressed to the caller) while its final state
is always the cleanup of the state the pipeline stopped in: sections
cleared, any stimulus manager's references released, any recording
manager's probes and configs discarded with a fresh time probe. -/
theorem claim_C2 {E R : Type}
    (s1 s2 s3 s4 s5 : RunnerState → Except E RunnerState)
    (gr : RunnerState → Except E R) (r0 : RunnerState) :
    run_simulation s1 s2 s3 s4 s5 gr r0 =
      ((pipeline s1 s2 s3 s4 s5 gr r0).1,
        runner_cleanup (pipeline s1 s2 s3 s4 s5 gr r0).2) ∧
    (∀ e, (pipeline s1 s2 s3 s4 s5 gr r0).1 = .error e →
      (run_simulation s1 s2 s3 s4 s5 gr r0).1 = .error e) ∧
    (run_simulation s1 s2 s3 s4 s5 gr r0).2.sections = [] ∧
    (∀ m, (run_simulation s1 s2 s3 s4 s5 gr r0).2.stimulus_manager = some m →
      m.stimuli = []) ∧
    (∀ m, (run_simulation s1 s2 s3 s4 s5 gr r0).2.recording_manager = some m →
      m.recording_vectors = [] ∧ m.recording_configs = [] ∧
        m.time_vector = freshVector) := by
  have heq : run_simulation s1 s2 s3 s4 s5 gr r0 =
      ((pipeline s1 s2 s3 s4 s5 gr r0).1,
        runner_cleanup (pipeline s1 s2 s3 s4 s5 gr r0).2) := by
    rcases h1 : s1 r0 with e | r1
    · simp [run_simulation, pipeline, h1]
    · rcases h2 : s2 r1 with e | r2
      · simp [run_simulation, pipeline, h1, h2]
      · rcases h3 : s3 r2 with e | r3
        · simp [run_simulation, pipeline, h1, h2, h3]
        · rcases h4 : s4 r3 with e | r4
          · simp [run_simulation, pipeline, h1, h2, h3, h4]
          · rcases h5 : s5 r4 with e | r5
            · simp [run_simulation, pipeline, h1, h2, h3, h4, h5]
            · rcases h6 : gr r5 with e | res
              · simp [run_simulation, pipeline, h1, h2, h3, h4, h5, h6]
              · simp [run_simulation, pipeline, h1, h2, h3, h4, h5, h6]
  refine ⟨heq, ?_, ?_, ?_, ?_⟩
  · intro e he
    rw [heq]
    simpa using he
  · rw [heq]
    rfl
  · intro m hm
    rw [heq] at hm
    simp only [runner_cleanup, Option.map_eq_some'] at hm
    rcases hm with ⟨a, _, rfl⟩
    rfl
  · intro m hm
    rw [heq] at hm
    simp only [runner_cleanup, Option.map_eq_some'] at hm
    rcases hm with ⟨a, _, rfl⟩
    exact ⟨rfl, rfl, rfl⟩

/-- C2 witness: with a pipeline whose recording-setup stage fails after
sections and stimuli were built, the original error is returned and the
final state is fully cleaned. -/
theorem claim_C2_witness :
    (run_simulation demoStep1 demoStep2 demoStep3 demoStepOk demoStepOk
      demoResults demoR0).1 = Except.error "recording setup failed" ∧
    (run_simulation demoStep1 demoStep2 demoStep3 demoStepOk demoStepOk
      demoResults demoR0).2.sections = [] ∧
    (⟨[]⟩ : StimulusManagerState).stimuli = [] :=
  ⟨(claim_C2 demoStep1 demoStep2 demoStep3 demoStepOk demoStepOk
      demoResults demoR0).2.1 "recording setup failed" rfl,
   (claim_C2 demoStep1 demoStep2 demoStep3 demoStepOk demoStepOk
      demoResults demoR0).2.2.1,
   (claim_C2 demoStep1 demoStep2 demoStep3 demoStepOk demoStepOk
      demoResults demoR0).2.2.2.1 ⟨[]⟩ rfl⟩

/-- C4: for a recording of a variable other than `v`/`i` on a resolved
section, a point exposing no `_ref_<variable>` reference fails with the
wrapped not-found error naming the variable and the section, and an
engine error raised during the dynamic bind is re-raised wrapped with
the variable name. -/
theorem claim_C4 (sections : List (String × EngineSection)) (config : Recording)
    (sec : EngineSection)
    (hfind : List.lookup config.«section» sections = some sec)
    (hv : config.«variable» ≠ "v") (hi : config.«variable» ≠ "i") :
    ((sec config.loc).hasRef (String.append "_ref_" config.«variable») = false →
      create_recording sections config =
        .error (.failedRecord config.«variable»
          (.varNotFound config.«variable» config.«section»))) ∧
    (∀ e, (sec config.loc).hasRef (String.append "_ref_" config.«variable») = true →
      (sec config.loc).bindRef (String.append "_ref_" config.«variable») = .error e →
      create_recording sections config =
        .error (.failedRecord config.«variable» (.engineErr e))) := by
  constructor
  · intro h
    unfold create_recording
    rw [hfind]
    simp [hv, hi, h]
  · intro e h hbind
    unfold create_recording
    rw [hfind]
    simp [hv, hi, h, hbind]

/-- C4 witness: recording variable `cai` on section `soma` fails with
the wrapped not-found error when the point exposes no `_ref_cai`, and
with the wrapped engine error when the bind fails. -/
theorem claim_C4_witness :
    create_recording demoSectionsNoRef demoRecording =
      .error (.failedRecord "cai" (.varNotFound "cai" "soma")) ∧
    create_recording demoSectionsBadBind demoRecording =
      .error (.failedRecord "cai" (.engineErr "engine boom")) :=
  ⟨(claim_C4 demoSectionsNoRef demoRecording (fun _ => demoPointNoRef)
      rfl (by decide) (by decide)).1 rfl,
   (claim_C4 demoSectionsBadBind demoRecording (fun _ => demoPointBadBind)
      rfl (by decide) (by decide)).2 "engine boom" rfl rfl⟩

theorem writeTraces_not_mem_create_plots (outputConfig : OutputConfig)
    (data : TraceData) (p : String) :
    OutEvent.writeTracesCsv p ∉ create_plots outputConfig data := by
  unfold create_plots
  cases outputConfig.plot with
  | none => simp
  | some pc =>
    by_cases ht : (List.lookup "time" data).isSome
    · simp only [ht, if_true]
      intro hmem
      rcases List.mem_append.mp hmem with h | h
      · rcases List.mem_map.mp h with ⟨a, _, ha⟩
        by_cases hl : (List.lookup a data).isSome <;> simp [hl] at ha
      · simp at h
    · simp [ht]

/-- C10: when `save_traces.format` is anything other than `csv`
(including absent), `save_results` still creates the output directory
and still runs the plotting branch, but emits no trace-file write at
all and has no error path: the unsupported format is silently
skipped. -/
theorem claim_C10 (outputConfig : OutputConfig) (data : TraceData)
    (h : List.lookup "format" outputConfig.save_traces ≠ some "csv") :
    save_results outputConfig data =
      .mkdirOutput outputConfig.directory ::
        (match outputConfig.plot with
         | some pc => if pc.enabled then create_plots outputConfig data else []
         | none => []) ∧
    ∀ p, OutEvent.writeTracesCsv p ∉ save_results outputConfig data := by
  have hst : save_traces outputConfig data = [] := by
    simp [save_traces, h]
  constructor
  · simp [save_results, hst]
  · intro p hmem
    unfold save_results at hmem
    rw [hst] at hmem
    rcases List.mem_cons.mp hmem with h1 | h1
    · simp at h1
    · rw [List.nil_append] at h1
      rcases hp : outputConfig.plot with _ | pc
      · rw [hp] at h1
        simp at h1
      · rw [hp] at h1
        have h2 : OutEvent.writeTracesCsv p ∈
            (if pc.enabled = true then create_plots outputConfig data else []) := h1
        by_cases he : pc.enabled
        · rw [if_pos he] at h2
          exact writeTraces_not_mem_create_plots outputConfig data p h2
        · rw [if_neg he] at h2
          simp at h2

/-- C10 witness: with format `json` and no plot config, `save_results`
emits only the directory creation and no trace write. -/
theorem claim_C10_witness :
    save_results demoOutputConfig [] = [OutEvent.mkdirOutput "results"] ∧
    OutEvent.writeTracesCsv "results/traces.csv" ∉ save_results demoOutputConfig [] := by
  have h := claim_C10 demoOutputConfig [] (by decide)
  refine ⟨?_, h.2 "results/traces.csv"⟩
  rw [h.1]
  rfl

/-- C5: the CLI prints help and exits 1 when no subcommand is given;
prints a file-not-found error and exits 1 without dispatching when the
config path does not exist; prints an extension warning but still
dispatches when an existing file's suffix is not `.yaml`/`.yml`
case-insensitively; and after dispatch exits 0 exactly when the invoked
orchestration function returned success. -/
theorem claim_C5 (args : CliArgs) (fileExists : String → Bool)
    (run_experiment_fn : String → Option String → String → Bool)
    (validate_experiment_fn : String → String → Bool) :
    (args.command = none →
      main args fileExists run_experiment_fn validate_experiment_fn =
        (1, [.printedHelp])) ∧
    (∀ cmd, args.command = some cmd → fileExists args.config_file = false →
      main args fileExists run_experiment_fn validate_experiment_fn =
        (1, [.errorFileNotFound args.config_file])) ∧
    (∀ cmd, args.command = some cmd → fileExists args.config_file = true →
      lowerString (pathSuffix args.config_file) ∉ [".yaml", ".yml"] →
      CliEvent.warnBadExtension args.config_file ∈
        (main args fileExists run_experiment_fn validate_experiment_fn).2 ∧
      (cmd = CliCommand.run →
        CliEvent.dispatchedRun args.config_file args.output_dir args.log_level ∈
          (main args fileExists run_experiment_fn validate_experiment_fn).2) ∧
      (cmd = CliCommand.validate →
        CliEvent.dispatchedValidate args.config_file args.log_level ∈
          (main args fileExists run_experiment_fn validate_experiment_fn).2)) ∧
    (∀ cmd, args.command = some cmd → fileExists args.config_file = true →
      ((main args fileExists run_experiment_fn validate_experiment_fn).1 = 0 ↔
        (match cmd with
         | CliCommand.run =>
            run_experiment_fn args.config_file args.output_dir args.log_level
         | CliCommand.validate =>
            validate_experiment_fn args.config_file args.log_level) = true)) := by
  refine ⟨?_, ?_, ?_, ?_⟩
  · intro h
    simp [main, h]
  · intro cmd hc hfe
    cases cmd <;> simp [main, hc, hfe]
  · intro cmd hc hfe hsuf
    refine ⟨?_, ?_, ?_⟩
    · cases cmd <;> simp [main, hc, hfe, hsuf]
    · rintro rfl
      simp [main, hc, hfe]
    · rintro rfl
      simp [main, hc, hfe]
  · intro cmd hc hfe
    cases cmd with
    | run =>
      cases hb : run_experiment_fn args.config_file args.output_dir args.log_level <;>
        simp [main, hc, hfe, hb]
    | validate =>
      cases hb : validate_experiment_fn args.config_file args.log_level <;>
        simp [main, hc, hfe, hb]

/-- C5 witness: concrete invocations — no subcommand; a missing file; an
existing non-yaml file that warns, dispatches and exits 0 on success. -/
theorem claim_C5_witness :
    main ⟨none, "x", none, "INFO"⟩ (fun _ => true)
      (fun _ _ _ => true) (fun _ _ => true) = (1, [.printedHelp]) ∧
    main ⟨some .run, "m.yaml", none, "INFO"⟩ (fun _ => false)
      (fun _ _ _ => true) (fun _ _ => true) = (1, [.errorFileNotFound "m.yaml"]) ∧
    CliEvent.warnBadExtension "exp.txt" ∈
      (main ⟨some .run, "exp.txt", none, "INFO"⟩ (fun _ => true)
        (fun _ _ _ => true) (fun _ _ => true)).2 ∧
    (main ⟨some .run, "exp.txt", none, "INFO"⟩ (fun _ => true)
      (fun _ _ _ => true) (fun _ _ => true)).1 = 0 :=
  ⟨(claim_C5 ⟨none, "x", none, "INFO"⟩ (fun _ => true)
      (fun _ _ _ => true) (fun _ _ => true)).1 rfl,
   (claim_C5 ⟨some .run, "m.yaml", none, "INFO"⟩ (fun _ => false)
      (fun _ _ _ => true) (fun _ _ => true)).2.1 .run rfl rfl,
   ((claim_C5 ⟨some .run, "exp.txt", none, "INFO"⟩ (fun _ => true)
      (fun _ _ _ => true) (fun _ _ => true)).2.2.1 .run rfl rfl (by decide)).1,
   ((claim_C5 ⟨some .run, "exp.txt", none, "INFO"⟩ (fun _ => true)
      (fun _ _ _ => true) (fun _ _ => true)).2.2.2 .run rfl rfl).mpr rfl⟩

/-! ## Round-trip of the document emitter and parser -/

theorem takeWhile_append_of_all {α : Type} (p : α → Bool) :
    ∀ (l1 l2 : List α), (∀ t ∈ l1, p t = true) →
      List.takeWhile p (l1 ++ l2) = l1 ++ List.takeWhile p l2 := by
  intro l1
  induction l1 with
  | nil => intro l2 _; rfl
  | cons a l ih =>
    intro l2 h
    have ha : p a = true := h a (List.mem_cons_self a l)
    have hrest : ∀ t ∈ l, p t = true := fun t ht => h t (List.mem_cons_of_mem a ht)
    simp [List.takeWhile_cons, ha, ih l2 hrest]

theorem dropWhile_append_of_all {α : Type} (p : α → Bool) :
    ∀ (l1 l2 : List α), (∀ t ∈ l1, p t = true) →
      List.dropWhile p (l1 ++ l2) = List.dropWhile p l2 := by
  intro l1
  induction l1 with
  | nil => intro l2 _; rfl
  | cons a l ih =>
    intro l2 h
    have ha : p a = true := h a (List.mem_cons_self a l)
    have hrest : ∀ t ∈ l, p t = true := fun t ht => h t (List.mem_cons_of_mem a ht)
    simp [List.dropWhile_cons, ha, ih l2 hrest]

theorem emitEntries_not_deeper (ind : Nat) (es : YEntries) :
    List.takeWhile (deeper ind) (emitEntries ind es) = [] ∧
    List.dropWhile (deeper ind) (emitEntries ind es) = emitEntries ind es := by
  cases es with
  | nil => exact ⟨rfl, rfl⟩
  | cons k v rest =>
    cases v <;>
      simp [emitEntries, List.takeWhile_cons, List.dropWhile_cons, deeper, YTok.indent]

theorem emitItems_not_deeper (ind : Nat) (xs : YItems) :
    List.takeWhile (deeper ind) (emitItems ind xs) = [] ∧
    List.dropWhile (deeper ind) (emitItems ind xs) = emitItems ind xs := by
  cases xs with
  | nil => exact ⟨rfl, rfl⟩
  | cons v rest =>
    cases v <;>
      simp [emitItems, List.takeWhile_cons, List.dropWhile_cons, deeper, YTok.indent]

mutual

theorem emitBlock_indent : ∀ (v : YValue) (ind : Nat) (t : YTok),
    t ∈ emitBlock ind v → ind ≤ t.indent
  | .scalar s, ind, t, ht => by simp [emitBlock] at ht
  | .map es, ind, t, ht =>
    emitEntries_indent es ind t (by simpa [emitBlock] using ht)
  | .list xs, ind, t, ht =>
    emitItems_indent xs ind t (by simpa [emitBlock] using ht)

theorem emitEntries_indent : ∀ (es : YEntries) (ind : Nat) (t : YTok),
    t ∈ emitEntries ind es → ind ≤ t.indent
  | .nil, ind, t, ht => by simp [emitEntries] at ht
  | .cons k v rest, ind, t, ht => by
    cases v with
    | scalar s =>
      rcases List.mem_cons.mp (by simpa [emitEntries] using ht) with rfl | h
      · exact Nat.le_refl ind
      · exact emitEntries_indent rest ind t h
    | map es2 =>
      have h3 : t = YTok.entry ind k none ∨
          t ∈ emitBlock (ind + 1) (YValue.map es2) ∨ t ∈ emitEntries ind rest := by
        simpa [emitEntries] using ht
      rcases h3 with rfl | h2 | h2
      · exact Nat.le_refl ind
      · exact Nat.le_trans (Nat.le_succ ind)
          (emitBlock_indent (.map es2) (ind + 1) t h2)
      · exact emitEntries_indent rest ind t h2
    | list xs2 =>
      have h3 : t = YTok.entry ind k none ∨
          t ∈ emitBlock (ind + 1) (YValue.list xs2) ∨ t ∈ emitEntries ind rest := by
        simpa [emitEntries] using ht
      rcases h3 with rfl | h2 | h2
      · exact Nat.le_refl ind
      · exact Nat.le_trans (Nat.le_succ ind)
          (emitBlock_indent (.list xs2) (ind + 1) t h2)
      · exact emitEntries_indent rest ind t h2

theorem emitItems_indent : ∀ (xs : YItems) (ind : Nat) (t : YTok),
    t ∈ emitItems ind xs → ind ≤ t.indent
  | .nil, ind, t, ht => by simp [emitItems] at ht
  | .cons v rest, ind, t, ht => by
    cases v with
    | scalar s =>
      rcases List.mem_cons.mp (by simpa [emitItems] using ht) with rfl | h
      · exact Nat.le_refl ind
      · exact emitItems_indent rest ind t h
    | map es2 =>
      have h3 : t = YTok.item ind none ∨
          t ∈ emitBlock (ind + 1) (YValue.map es2) ∨ t ∈ emitItems ind rest := by
        simpa [emitItems] using ht
      rcases h3 with rfl | h2 | h2
      · exact Nat.le_refl ind
      · exact Nat.le_trans (Nat.le_succ ind)
          (emitBlock_indent (.map es2) (ind + 1) t h2)
      · exact emitItems_indent rest ind t h2
    | list xs2 =>
      have h3 : t = YTok.item ind none ∨
          t ∈ emitBlock (ind + 1) (YValue.list xs2) ∨ t ∈ emitItems ind rest := by
        simpa [emitItems] using ht
      rcases h3 with rfl | h2 | h2
      · exact Nat.le_refl ind
      · exact Nat.le_trans (Nat.le_succ ind)
          (emitBlock_indent (.list xs2) (ind + 1) t h2)
      · exact emitItems_indent rest ind t h2

end

theorem emitBlock_all_deeper (ind : Nat) (v : YValue) :
    ∀ t ∈ emitBlock (ind + 1) v, deeper ind t = true := by
  intro t ht
  simp only [deeper, decide_eq_true_eq]
  exact Nat.lt_of_lt_of_le (Nat.lt_succ_self ind) (emitBlock_indent v (ind + 1) t ht)

theorem split_emit_entries (ind : Nat) (v : YValue) (rest : YEntries) :
    List.takeWhile (deeper ind) (emitBlock (ind + 1) v ++ emitEntries ind rest) =
      emitBlock (ind + 1) v ∧
    List.dropWhile (deeper ind) (emitBlock (ind + 1) v ++ emitEntries ind rest) =
      emitEntries ind rest := by
  constructor
  · have h := takeWhile_append_of_all (deeper ind) (emitBlock (ind + 1) v)
      (emitEntries ind rest) (emitBlock_all_deeper ind v)
    rw [(emitEntries_not_deeper ind rest).1, List.append_nil] at h
    exact h
  · have h := dropWhile_append_of_all (deeper ind) (emitBlock (ind + 1) v)
      (emitEntries ind rest) (emitBlock_all_deeper ind v)
    rw [(emitEntries_not_deeper ind rest).2] at h
    exact h

theorem split_emit_items (ind : Nat) (v : YValue) (rest : YItems) :
    List.takeWhile (deeper ind) (emitBlock (ind + 1) v ++ emitItems ind rest) =
      emitBlock (ind + 1) v ∧
    List.dropWhile (deeper ind) (emitBlock (ind + 1) v ++ emitItems ind rest) =
      emitItems ind rest := by
  constructor
  · have h := takeWhile_append_of_all (deeper ind) (emitBlock (ind + 1) v)
      (emitItems ind rest) (emitBlock_all_deeper ind v)
    rw [(emitItems_not_deeper ind rest).1, List.append_nil] at h
    exact h
  · have h := dropWhile_append_of_all (deeper ind) (emitBlock (ind + 1) v)
      (emitItems ind rest) (emitBlock_all_deeper ind v)
    rw [(emitItems_not_deeper ind rest).2] at h
    exact h

mutual

theorem parseBlock_emit : ∀ (v : YValue) (ind fuel : Nat), wfVal v = true →
    v.isScalar = false → vcost v ≤ fuel →
    parseBlock fuel ind (emitBlock ind v) = some v
  | .scalar s, _, _, _, hs, _ => by simp [YValue.isScalar] at hs
  | .map es, ind, fuel, hwf, _, hc => by
    obtain ⟨f, rfl⟩ : ∃ f, fuel = f + 1 := ⟨fuel - 1, by simp [vcost] at hc; omega⟩
    cases es with
    | nil => simp [wfVal] at hwf
    | cons k v rest =>
      have hwf2 : wfEntries (.cons k v rest) = true := by
        simpa [wfVal, wfEntries] using hwf
      have hc2 : ecost (.cons k v rest) ≤ f := by
        simp only [vcost] at hc
        omega
      have hp := parseEntries_emit (.cons k v rest) ind f hwf2 hc2
      cases v with
      | scalar s =>
        simp only [emitEntries] at hp
        simp only [emitBlock, emitEntries, parseBlock]
        rw [hp]
        rfl
      | map es2 =>
        simp only [emitBlock, emitEntries] at hp
        simp only [emitBlock, emitEntries, parseBlock]
        rw [hp]
        rfl
      | list xs2 =>
        simp only [emitBlock, emitEntries] at hp
        simp only [emitBlock, emitEntries, parseBlock]
        rw [hp]
        rfl
  | .list xs, ind, fuel, hwf, _, hc => by
    obtain ⟨f, rfl⟩ : ∃ f, fuel = f + 1 := ⟨fuel - 1, by simp [vcost] at hc; omega⟩
    cases xs with
    | nil => simp [wfVal] at hwf
    | cons v rest =>
      have hwf2 : wfItems (.cons v rest) = true := by
        simpa [wfVal, wfItems] using hwf
      have hc2 : icost (.cons v rest) ≤ f := by
        simp only [vcost] at hc
        omega
      have hp := parseItems_emit (.cons v rest) ind f hwf2 hc2
      cases v with
      | scalar s =>
        simp only [emitItems] at hp
        simp only [emitBlock, emitItems, parseBlock]
        rw [hp]
        rfl
      | map es2 =>
        simp only [emitBlock, emitItems] at hp
        simp only [emitBlock, emitItems, parseBlock]
        rw [hp]
        rfl
      | list xs2 =>
        simp only [emitBlock, emitItems] at hp
        simp only [emitBlock, emitItems, parseBlock]
        rw [hp]
        rfl

theorem parseEntries_emit : ∀ (es : YEntries) (ind fuel : Nat), wfEntries es = true →
    ecost es ≤ fuel → parseEntries fuel ind (emitEntries ind es) = some es
  | .nil, ind, fuel, _, hc => by
    obtain ⟨f, rfl⟩ : ∃ f, fuel = f + 1 := ⟨fuel - 1, by simp [ecost] at hc; omega⟩
    rfl
  | .cons k v rest, ind, fuel, hwf, hc => by
    obtain ⟨f, rfl⟩ : ∃ f, fuel = f + 1 := ⟨fuel - 1, by simp [ecost] at hc; omega⟩
    have hwfv : wfVal v = true := by
      have h := hwf
      simp [wfEntries] at h
      exact h.1
    have hwfr : wfEntries rest = true := by
      have h := hwf
      simp [wfEntries] at h
      exact h.2
    have hcv : vcost v ≤ f := by simp only [ecost] at hc; omega
    have hcr : ecost rest ≤ f := by simp only [ecost] at hc; omega
    have hrec := parseEntries_emit rest ind f hwfr hcr
    cases v with
    | scalar s =>
      simp only [emitEntries]
      simp [parseEntries, (emitEntries_not_deeper ind rest).1,
        (emitEntries_not_deeper ind rest).2, hrec]
    | map es2 =>
      have hb := parseBlock_emit (.map es2) (ind + 1) f hwfv rfl hcv
      simp only [emitEntries]
      simp [parseEntries, (split_emit_entries ind (.map es2) rest).1,
        (split_emit_entries ind (.map es2) rest).2, hb, hrec]
    | list xs2 =>
      have hb := parseBlock_emit (.list xs2) (ind + 1) f hwfv rfl hcv
      simp only [emitEntries]
      simp [parseEntries, (split_emit_entries ind (.list xs2) rest).1,
        (split_emit_entries ind (.list xs2) rest).2, hb, hrec]

theorem parseItems_emit : ∀ (xs : YItems) (ind fuel : Nat), wfItems xs = true →
    icost xs ≤ fuel → parseItems fuel ind (emitItems ind xs) = some xs
  | .nil, ind, fuel, _, hc => by
    obtain ⟨f, rfl⟩ : ∃ f, fuel = f + 1 := ⟨fuel - 1, by simp [icost] at hc; omega⟩
    rfl
  | .cons v rest, ind, fuel, hwf, hc => by
    obtain ⟨f, rfl⟩ : ∃ f, fuel = f + 1 := ⟨fuel - 1, by simp [icost] at hc; omega⟩
    have hwfv : wfVal v = true := by
      have h := hwf
      simp [wfItems] at h
      exact h.1
    have hwfr : wfItems rest = true := by
      have h := hwf
      simp [wfItems] at h
      exact h.2
    have hcv : vcost v ≤ f := by simp only [icost] at hc; omega
    have hcr : icost rest ≤ f := by simp only [icost] at hc; omega
    have hrec := parseItems_emit rest ind f hwfr hcr
    cases v with
    | scalar s =>
      simp only [emitItems]
      simp [parseItems, (emitItems_not_deeper ind rest).1,
        (emitItems_not_deeper ind rest).2, hrec]
    | map es2 =>
      have hb := parseBlock_emit (.map es2) (ind + 1) f hwfv rfl hcv
      simp only [emitItems]
      simp [parseItems, (split_emit_items ind (.map es2) rest).1,
        (split_emit_items ind (.map es2) rest).2, hb, hrec]
    | list xs2 =>
      have hb := parseBlock_emit (.list xs2) (ind + 1) f hwfv rfl hcv
      simp only [emitItems]
      simp [parseItems, (split_emit_items ind (.list xs2) rest).1,
        (split_emit_items ind (.list xs2) rest).2, hb, hrec]

end

mutual

theorem vcost_le_emit : ∀ (v : YValue) (ind : Nat),
    vcost v ≤ 3 * (emitBlock ind v).length + 2
  | .scalar s, ind => by simp [vcost, emitBlock]
  | .map es, ind => by
    have h := ecost_le_emit es ind
    simp only [vcost, emitBlock]
    omega
  | .list xs, ind => by
    have h := icost_le_emit xs ind
    simp only [vcost, emitBlock]
    omega

theorem ecost_le_emit : ∀ (es : YEntries) (ind : Nat),
    ecost es ≤ 3 * (emitEntries ind es).length + 1
  | .nil, ind => by simp [ecost, emitEntries]
  | .cons k v rest, ind => by
    have hr := ecost_le_emit rest ind
    cases v with
    | scalar s =>
      simp only [ecost, vcost, emitEntries, List.length_cons]
      omega
    | map es2 =>
      have hv := vcost_le_emit (.map es2) (ind + 1)
      simp only [ecost, emitEntries, List.length_cons, List.length_append]
      omega
    | list xs2 =>
      have hv := vcost_le_emit (.list xs2) (ind + 1)
      simp only [ecost, emitEntries, List.length_cons, List.length_append]
      omega

theorem icost_le_emit : ∀ (xs : YItems) (ind : Nat),
    icost xs ≤ 3 * (emitItems ind xs).length + 1
  | .nil, ind => by simp [icost, emitItems]
  | .cons v rest, ind => by
    have hr := icost_le_emit rest ind
    cases v with
    | scalar s =>
      simp only [icost, vcost, emitItems, List.length_cons]
      omega
    | map es2 =>
      have hv := vcost_le_emit (.map es2) (ind + 1)
      simp only [icost, emitItems, List.length_cons, List.length_append]
      omega
    | list xs2 =>
      have hv := vcost_le_emit (.list xs2) (ind + 1)
      simp only [icost, emitItems, List.length_cons, List.length_append]
      omega

end

theorem parse_dump (v : YValue) (hwf : wfVal v = true)
    (hns : v.isScalar = false) : parseDoc (dump v) = some v := by
  have h := vcost_le_emit v 0
  exact parseBlock_emit v 0 (3 * (emitBlock 0 v).length + 2) hwf hns h

/-- C8: writing a well-formed configuration mapping with
`save_yaml_config` and reloading the written file with
`load_yaml_config` yields the original mapping. -/
theorem claim_C8 (fs : FileSystem) (path : String) (v : YValue)
    (hwf : wfVal v = true) (hm : v.isMap = true) :
    load_yaml_config (save_yaml_config fs v path) path = .ok v := by
  have hns : v.isScalar = false := by
    cases v with
    | scalar s => simp [YValue.isMap] at hm
    | map es => rfl
    | list xs => simp [YValue.isMap] at hm
  have hfile : save_yaml_config fs v path path = some (dump v) := by
    unfold save_yaml_config
    simp
  unfold load_yaml_config
  rw [hfile]
  show (match parseDoc (dump v) with
    | some w => Except.ok w
    | none => Except.error (LoadError.parseFailed path)) = Except.ok v
  rw [parse_dump v hwf hns]

/-- C8 witness: the spec's example mapping (metadata name `t`, one
`soma` section with `L = 20, diam = 20`, one stimulus, one recording,
`tstop_ms = 5`) survives a save/load round trip unchanged. -/
theorem claim_C8_witness :
    wfVal exampleYamlConfig = true ∧ exampleYamlConfig.isMap = true ∧
    load_yaml_config (save_yaml_config emptyFS exampleYamlConfig "experiment.yaml")
      "experiment.yaml" = .ok exampleYamlConfig :=
  ⟨rfl, rfl, claim_C8 emptyFS "experiment.yaml" exampleYamlConfig rfl rfl⟩

end NeuronToolkit
